import Mathlib

/-!
Verification of the Monte Carlo π-estimation visualization script
(`plot_results.py`) against its specification.

The script loads a CSV of (Sample_Count, Pi_Estimate, Error) rows and,
depending on a mode flag, renders a convergence plot, an error-analysis
plot, or a text summary report.  We embed the data model, the derived
analytics (relative error, log-log least-squares convergence rate, sample
efficiency, descriptive statistics) and the control flow of the three
visualization functions and the `main` driver.  Numeric columns are
modelled with exact real arithmetic; a pandas NaN arising from the
sample standard deviation of fewer than two rows is modelled as
`Option.none`; Python exceptions are modelled by an explicit `Outcome`
type distinguishing a caught-and-printed error, an uncaught raised
exception, and a produced output.
-/

namespace MCPlot

/-- One CSV row: `Sample_Count`, `Pi_Estimate`, `Error`. -/
structure Obs where
  sample_count : ℕ
  pi_estimate : ℝ
  error : ℝ

/-- The parsed data frame: the ordered list of rows. -/
abbrev Df := List Obs

/-- State of the input path: missing, existing but zero-byte, or a parsed table
(possibly with zero data rows, e.g. a header-only file). -/
inductive FileState where
  | absent
  | empty
  | content (rows : Df)

/-- Python exceptions relevant to the script: `FileNotFoundError`,
`pandas.errors.EmptyDataError`, and the `IndexError` from `.iloc[-1]`
on an empty column. -/
inductive PyError where
  | fileNotFound
  | emptyDataError
  | indexError
deriving DecidableEq

/-- Result of `pd.read_csv`: a missing path raises `FileNotFoundError`,
a zero-byte file raises `EmptyDataError`, otherwise the rows parse. -/
def read_csv : FileState → Except PyError Df
  | .absent => .error .fileNotFound
  | .empty => .error .emptyDataError
  | .content rows => .ok rows

/-- What a visualization function call does: print a caught error message
naming the file (not-found or empty variant), let an uncaught exception
propagate, or produce its output. -/
inductive Outcome (α : Type) where
  | printedNotFound (file : String)
  | printedEmpty (file : String)
  | raised (e : PyError)
  | output (a : α)

/-- The exception, if any, that a call lets propagate. -/
def raisedOf {α : Type} : Outcome α → Option PyError
  | .raised e => some e
  | _ => none

/-! ## Derived analytics -/

/-- `(df['Error'] / np.pi) * 100`, the relative error percentage column. -/
noncomputable def relative_errors (df : Df) : List ℝ :=
  df.map (fun o => o.error / Real.pi * 100)

/-- `np.log(df['Sample_Count'])`. -/
noncomputable def log_samples (df : Df) : List ℝ :=
  df.map (fun o => Real.log o.sample_count)

/-- `np.log(df['Error'])`. -/
noncomputable def log_errors (df : Df) : List ℝ :=
  df.map (fun o => Real.log o.error)

/-- Sum of the first components of a list of points. -/
noncomputable def sumFst (pts : List (ℝ × ℝ)) : ℝ := (pts.map (fun p => p.1)).sum

/-- Sum of the second components. -/
noncomputable def sumSnd (pts : List (ℝ × ℝ)) : ℝ := (pts.map (fun p => p.2)).sum

/-- Sum of the squared first components. -/
noncomputable def sumFstSq (pts : List (ℝ × ℝ)) : ℝ := (pts.map (fun p => p.1 ^ 2)).sum

/-- Sum of the products of the components. -/
noncomputable def sumProd (pts : List (ℝ × ℝ)) : ℝ := (pts.map (fun p => p.1 * p.2)).sum

/-- The determinant `n·Σx² − (Σx)²` of the degree-1 least-squares normal
equations. -/
noncomputable def denomD (pts : List (ℝ × ℝ)) : ℝ :=
  (pts.length : ℝ) * sumFstSq pts - (sumFst pts) ^ 2

/-- The degree-1 least-squares fit of a list of `(x, y)` points in exact
arithmetic: the unique solution `(slope, intercept)` of the normal
equations when `denomD ≠ 0`. -/
noncomputable def fitPair (pts : List (ℝ × ℝ)) : ℝ × ℝ :=
  let slope := ((pts.length : ℝ) * sumProd pts - sumFst pts * sumSnd pts) / denomD pts
  (slope, (sumSnd pts - slope * sumFst pts) / (pts.length : ℝ))

/-- `np.polyfit(xs, ys, 1)`: the ordinary-least-squares first-degree
polynomial coefficients `(slope, intercept)` for the paired data, in exact
real arithmetic. -/
noncomputable def polyfit1 (xs ys : List ℝ) : ℝ × ℝ := fitPair (xs.zip ys)

/-- `convergence_rate = -coeffs[0]`: the negated fitted slope of
`log(Error)` against `log(Sample_Count)`. -/
noncomputable def convergence_rate (df : Df) : ℝ :=
  -(polyfit1 (log_samples df) (log_errors df)).1

/-- `1.0 / (df['Sample_Count'] * df['Error']**2)`, the sample-efficiency
column. -/
noncomputable def sample_efficiency (df : Df) : List ℝ :=
  df.map (fun o => 1 / ((o.sample_count : ℝ) * o.error ^ 2))

/-- `1.0 / np.sqrt(df['Sample_Count'])`, the theoretical error bound curve. -/
noncomputable def theoretical_error (df : Df) : List ℝ :=
  df.map (fun o => 1 / Real.sqrt (o.sample_count : ℝ))

/-- `.min()` over a real column (the value for a nonempty column; 0 as a
dummy for the empty column, which the script never consults). -/
noncomputable def colMin : List ℝ → ℝ
  | [] => 0
  | x :: xs => xs.foldl min x

/-- `.max()` over a real column. -/
noncomputable def colMax : List ℝ → ℝ
  | [] => 0
  | x :: xs => xs.foldl max x

/-- `.mean()` over a real column. -/
noncomputable def colMean (l : List ℝ) : ℝ := l.sum / (l.length : ℝ)

/-- pandas `.std()`: the sample standard deviation with the `ddof = 1`
(`n − 1` denominator) convention; `none` models the NaN pandas returns
for fewer than two rows. -/
noncomputable def colStd (l : List ℝ) : Option ℝ :=
  if 2 ≤ l.length then
    some (Real.sqrt ((l.map (fun x => (x - colMean l) ^ 2)).sum / ((l.length : ℝ) - 1)))
  else none

/-- `.min()` over the integer `Sample_Count` column. -/
def natColMin : List ℕ → ℕ
  | [] => 0
  | x :: xs => xs.foldl min x

/-- `.max()` over the integer `Sample_Count` column. -/
def natColMax : List ℕ → ℕ
  | [] => 0
  | x :: xs => xs.foldl max x

/-- The four descriptive statistics the report prints for one column. -/
structure ColStats where
  minV : ℝ
  maxV : ℝ
  meanV : ℝ
  stdV : Option ℝ

/-- min / max / mean / std of a column, as printed by the report. -/
noncomputable def summary_stats (l : List ℝ) : ColStats :=
  ⟨colMin l, colMax l, colMean l, colStd l⟩

/-! ## The three visualization functions -/

/-- The fourth panel of the convergence plot: a histogram when there are
more than 10 rows, otherwise the placeholder text. -/
inductive HistPanel where
  | histogram (bins : ℕ)
  | placeholderText
deriving DecidableEq

/-- The data content of the figure `plot_convergence` draws. -/
structure ConvPlot where
  estimates : List ℝ
  errsCol : List ℝ
  relErrs : List ℝ
  hist : HistPanel

/-- `plot_convergence`: catches `FileNotFoundError` and `EmptyDataError`
at the load, printing a message naming the file and returning; otherwise
draws the four panels. -/
noncomputable def plot_convergence (file : String) (fs : FileState) : Outcome ConvPlot :=
  match read_csv fs with
  | .error .fileNotFound => .printedNotFound file
  | .error .emptyDataError => .printedEmpty file
  | .error e => .raised e
  | .ok df =>
      .output { estimates := df.map (fun o => o.pi_estimate)
                errsCol := df.map (fun o => o.error)
                relErrs := relative_errors df
                hist := if 10 < df.length then .histogram (min 20 (df.length / 5))
                        else .placeholderText }

/-- The convergence-rate sub-plot drawn when `len(df) > 1`. -/
structure RateSection where
  slope : ℝ
  rate : ℝ

/-- The data content of the figure `plot_error_analysis` draws. -/
structure ErrPlot where
  errsCol : List ℝ
  theoretical : List ℝ
  relErrs : List ℝ
  rateSection : Option RateSection
  finalEstimate : ℝ
  finalError : ℝ
  finalRelError : ℝ
  minError : ℝ
  maxError : ℝ
  meanError : ℝ
  stdError : Option ℝ
  efficiency : List ℝ

/-- The figure `plot_error_analysis` builds from a successfully loaded,
nonempty table whose last row is `last`. -/
noncomputable def buildErrPlot (df : Df) (last : Obs) : ErrPlot :=
  { errsCol := df.map (fun o => o.error)
    theoretical := theoretical_error df
    relErrs := relative_errors df
    rateSection :=
      if 1 < df.length then
        some { slope := (polyfit1 (log_samples df) (log_errors df)).1
               rate := convergence_rate df }
      else none
    finalEstimate := last.pi_estimate
    finalError := last.error
    finalRelError := last.error / Real.pi * 100
    minError := colMin (df.map (fun o => o.error))
    maxError := colMax (df.map (fun o => o.error))
    meanError := colMean (df.map (fun o => o.error))
    stdError := colStd (df.map (fun o => o.error))
    efficiency := sample_efficiency df }

/-- `plot_error_analysis`: its `try` block catches only
`FileNotFoundError`; any other load exception propagates.  The statistics
panel reads `.iloc[-1]`, which raises `IndexError` on a zero-row table. -/
noncomputable def plot_error_analysis (file : String) (fs : FileState) : Outcome ErrPlot :=
  match read_csv fs with
  | .error .fileNotFound => .printedNotFound file
  | .error e => .raised e
  | .ok df =>
      match df.getLast? with
      | some last => .output (buildErrPlot df last)
      | none => .raised .indexError

/-- The `CONVERGENCE ANALYSIS` section: the fitted rate and the printed
`Rate Ratio` value `convergence_rate / 0.5`. -/
structure ConvAnalysis where
  rate : ℝ
  rateOverHalf : ℝ

/-- The values `create_summary_report` prints. -/
structure Report where
  file : String
  totalPoints : ℕ
  sampleMin : ℕ
  sampleMax : ℕ
  finalEstimate : ℝ
  finalError : ℝ
  finalRelError : ℝ
  errStats : ColStats
  estStats : ColStats
  convergence : Option ConvAnalysis

/-- The report printed from a successfully loaded, nonempty table whose
last row is `last`. -/
noncomputable def buildReport (file : String) (df : Df) (last : Obs) : Report :=
  { file := file
    totalPoints := df.length
    sampleMin := natColMin (df.map (fun o => o.sample_count))
    sampleMax := natColMax (df.map (fun o => o.sample_count))
    finalEstimate := last.pi_estimate
    finalError := last.error
    finalRelError := last.error / Real.pi * 100
    errStats := summary_stats (df.map (fun o => o.error))
    estStats := summary_stats (df.map (fun o => o.pi_estimate))
    convergence :=
      if 1 < df.length then
        some { rate := convergence_rate df
               rateOverHalf := convergence_rate df / 0.5 }
      else none }

/-- `create_summary_report`: its `try` block catches only
`FileNotFoundError`; any other load exception propagates.  `.iloc[-1]`
raises `IndexError` on a zero-row table before anything else is printed. -/
noncomputable def create_summary_report (file : String) (fs : FileState) : Outcome Report :=
  match read_csv fs with
  | .error .fileNotFound => .printedNotFound file
  | .error e => .raised e
  | .ok df =>
      match df.getLast? with
      | some last => .output (buildReport file df last)
      | none => .raised .indexError

/-! ## The top-level driver -/

/-- The three values of the `--type` flag. -/
inductive Mode where
  | convergence
  | error
  | summary
deriving DecidableEq

/-- How a `main` invocation terminates: the explicit `sys.exit(1)` after the
existence check (printing a message naming the file), a crash from an
uncaught exception (the interpreter exits nonzero), or falling off the end
(exit status 0). -/
inductive MainResult where
  | earlyExit (file : String)
  | crashed (e : PyError)
  | completed

/-- The process exit status of a `MainResult`. -/
def exitCode : MainResult → ℕ
  | .earlyExit _ => 1
  | .crashed _ => 1
  | .completed => 0

/-- `main`: checks `Path(csv_file).exists()` and exits 1 with a message if
not; otherwise dispatches on the mode and completes with status 0 unless
the dispatched function lets an exception propagate. -/
noncomputable def main (file : String) (fs : FileState) (mode : Mode) : MainResult :=
  match fs with
  | .absent => .earlyExit file
  | fs' =>
      let raised? : Option PyError :=
        match mode with
        | .convergence => raisedOf (plot_convergence file fs')
        | .error => raisedOf (plot_error_analysis file fs')
        | .summary => raisedOf (create_summary_report file fs')
      match raised? with
      | some e => .crashed e
      | none => .completed

/-! ## Spec-side characterization of the least-squares fit -/

/-- Sum of squared residuals of the line `y = a + b·x` over paired data. -/
noncomputable def rssP (pts : List (ℝ × ℝ)) (a b : ℝ) : ℝ :=
  (pts.map (fun p => (p.2 - (a + b * p.1)) ^ 2)).sum

/-- Spec-side: `(a, b)` is an intercept/slope pair of a first-degree
ordinary-least-squares fit of `ys` against `xs`, i.e. it minimizes the sum
of squared residuals. -/
def IsOLSFit (xs ys : List ℝ) (a b : ℝ) : Prop :=
  ∀ a' b' : ℝ, rssP (xs.zip ys) a b ≤ rssP (xs.zip ys) a' b'

/-- Sum of the residuals of the line `y = a + b·x`. -/
noncomputable def resSum (pts : List (ℝ × ℝ)) (a b : ℝ) : ℝ :=
  (pts.map (fun p => p.2 - (a + b * p.1))).sum

/-- Sum of the `x`-weighted residuals. -/
noncomputable def resXSum (pts : List (ℝ × ℝ)) (a b : ℝ) : ℝ :=
  (pts.map (fun p => p.1 * (p.2 - (a + b * p.1)))).sum

/-- Sum of `(c + d·x)²` over the data, the quadratic form controlling how the
residual sum grows away from the optimum. -/
noncomputable def shiftSq (pts : List (ℝ × ℝ)) (c d : ℝ) : ℝ :=
  (pts.map (fun p => (c + d * p.1) ^ 2)).sum

@[simp] lemma sumFst_nil : sumFst [] = 0 := rfl

@[simp] lemma sumFst_cons (p : ℝ × ℝ) (t : List (ℝ × ℝ)) :
    sumFst (p :: t) = p.1 + sumFst t := by simp [sumFst]

@[simp] lemma sumSnd_nil : sumSnd [] = 0 := rfl

@[simp] lemma sumSnd_cons (p : ℝ × ℝ) (t : List (ℝ × ℝ)) :
    sumSnd (p :: t) = p.2 + sumSnd t := by simp [sumSnd]

@[simp] lemma sumFstSq_nil : sumFstSq [] = 0 := rfl

@[simp] lemma sumFstSq_cons (p : ℝ × ℝ) (t : List (ℝ × ℝ)) :
    sumFstSq (p :: t) = p.1 ^ 2 + sumFstSq t := by simp [sumFstSq]

@[simp] lemma sumProd_nil : sumProd [] = 0 := rfl

@[simp] lemma sumProd_cons (p : ℝ × ℝ) (t : List (ℝ × ℝ)) :
    sumProd (p :: t) = p.1 * p.2 + sumProd t := by simp [sumProd]

@[simp] lemma rssP_nil (a b : ℝ) : rssP [] a b = 0 := rfl

@[simp] lemma rssP_cons (p : ℝ × ℝ) (t : List (ℝ × ℝ)) (a b : ℝ) :
    rssP (p :: t) a b = (p.2 - (a + b * p.1)) ^ 2 + rssP t a b := by simp [rssP]

@[simp] lemma resSum_nil (a b : ℝ) : resSum [] a b = 0 := rfl

@[simp] lemma resSum_cons (p : ℝ × ℝ) (t : List (ℝ × ℝ)) (a b : ℝ) :
    resSum (p :: t) a b = (p.2 - (a + b * p.1)) + resSum t a b := by simp [resSum]

@[simp] lemma resXSum_nil (a b : ℝ) : resXSum [] a b = 0 := rfl

@[simp] lemma resXSum_cons (p : ℝ × ℝ) (t : List (ℝ × ℝ)) (a b : ℝ) :
    resXSum (p :: t) a b = p.1 * (p.2 - (a + b * p.1)) + resXSum t a b := by simp [resXSum]

@[simp] lemma shiftSq_nil (c d : ℝ) : shiftSq [] c d = 0 := rfl

@[simp] lemma shiftSq_cons (p : ℝ × ℝ) (t : List (ℝ × ℝ)) (c d : ℝ) :
    shiftSq (p :: t) c d = (c + d * p.1) ^ 2 + shiftSq t c d := by simp [shiftSq]

lemma resSum_eq (pts : List (ℝ × ℝ)) (a b : ℝ) :
    resSum pts a b = sumSnd pts - (pts.length : ℝ) * a - b * sumFst pts := by
  induction pts with
  | nil => simp
  | cons p t ih =>
      simp only [resSum_cons, sumSnd_cons, sumFst_cons, List.length_cons, ih]
      push_cast
      ring

lemma resXSum_eq (pts : List (ℝ × ℝ)) (a b : ℝ) :
    resXSum pts a b = sumProd pts - a * sumFst pts - b * sumFstSq pts := by
  induction pts with
  | nil => simp
  | cons p t ih =>
      simp only [resXSum_cons, sumProd_cons, sumFst_cons, sumFstSq_cons, ih]
      ring

lemma rss_decomp (pts : List (ℝ × ℝ)) (a b a' b' : ℝ) :
    rssP pts a' b' =
      rssP pts a b - 2 * (a' - a) * resSum pts a b - 2 * (b' - b) * resXSum pts a b +
        shiftSq pts (a' - a) (b' - b) := by
  induction pts with
  | nil => simp
  | cons p t ih =>
      simp only [rssP_cons, resSum_cons, resXSum_cons, shiftSq_cons, ih]
      ring

lemma shiftSq_nonneg (pts : List (ℝ × ℝ)) (c d : ℝ) : 0 ≤ shiftSq pts c d := by
  apply List.sum_nonneg
  intro x hx
  obtain ⟨p, _, rfl⟩ := List.mem_map.mp hx
  exact sq_nonneg _

lemma shiftSq_eq_zero {pts : List (ℝ × ℝ)} {c d : ℝ} (h : shiftSq pts c d = 0) :
    ∀ p ∈ pts, c + d * p.1 = 0 := by
  induction pts with
  | nil => intro p hp; cases hp
  | cons q t ih =>
      have hh : (0 : ℝ) ≤ (c + d * q.1) ^ 2 := sq_nonneg _
      have ht : (0 : ℝ) ≤ shiftSq t c d := shiftSq_nonneg t c d
      rw [shiftSq_cons] at h
      have h1 : (c + d * q.1) ^ 2 = 0 := by linarith
      have h2 : shiftSq t c d = 0 := by linarith
      intro p hp
      rcases List.mem_cons.mp hp with rfl | hp'
      · exact (pow_eq_zero_iff (two_ne_zero)).mp h1
      · exact ih h2 p hp'

lemma constSq_sum (pts : List (ℝ × ℝ)) (c : ℝ) :
    (pts.map (fun q => (c - q.1) ^ 2)).sum =
      (pts.length : ℝ) * c ^ 2 - 2 * c * sumFst pts + sumFstSq pts := by
  induction pts with
  | nil => simp
  | cons p t ih =>
      simp only [List.map_cons, List.sum_cons, sumFst_cons, sumFstSq_cons,
        List.length_cons, ih]
      push_cast
      ring

lemma denomD_cons (p : ℝ × ℝ) (t : List (ℝ × ℝ)) :
    denomD (p :: t) = denomD t + (t.map (fun q => (p.1 - q.1) ^ 2)).sum := by
  simp only [denomD, constSq_sum, sumFst_cons, sumFstSq_cons, List.length_cons]
  push_cast
  ring

lemma denomD_nonneg (pts : List (ℝ × ℝ)) : 0 ≤ denomD pts := by
  induction pts with
  | nil => simp [denomD]
  | cons q t ih =>
      rw [denomD_cons]
      have hs : 0 ≤ (t.map (fun r => (q.1 - r.1) ^ 2)).sum := by
        apply List.sum_nonneg
        intro x hx
        obtain ⟨r, _, rfl⟩ := List.mem_map.mp hx
        exact sq_nonneg _
      linarith

lemma denomD_pos :
    ∀ (pts : List (ℝ × ℝ)) (u v : ℝ × ℝ), u ∈ pts → v ∈ pts → u.1 ≠ v.1 →
      0 < denomD pts := by
  intro pts
  induction pts with
  | nil => intro u v hu _ _; cases hu
  | cons q t ih =>
      intro u v hu hv hx
      rw [denomD_cons]
      have hnn : ∀ x ∈ t.map (fun r => (q.1 - r.1) ^ 2), (0 : ℝ) ≤ x := by
        intro x hx'
        obtain ⟨r, _, rfl⟩ := List.mem_map.mp hx'
        exact sq_nonneg _
      have hs : 0 ≤ (t.map (fun r => (q.1 - r.1) ^ 2)).sum := List.sum_nonneg hnn
      rcases List.mem_cons.mp hu with rfl | hu'
      · rcases List.mem_cons.mp hv with rfl | hv'
        · exact absurd rfl hx
        · have hterm : (u.1 - v.1) ^ 2 ≤ (t.map (fun r => (u.1 - r.1) ^ 2)).sum :=
            List.single_le_sum hnn _ (List.mem_map_of_mem _ hv')
          have hpos : 0 < (u.1 - v.1) ^ 2 :=
            pow_two_pos_of_ne_zero (sub_ne_zero.mpr hx)
          have := denomD_nonneg t
          linarith
      · rcases List.mem_cons.mp hv with rfl | hv'
        · have hterm : (v.1 - u.1) ^ 2 ≤ (t.map (fun r => (v.1 - r.1) ^ 2)).sum :=
            List.single_le_sum hnn _ (List.mem_map_of_mem _ hu')
          have hpos : 0 < (v.1 - u.1) ^ 2 :=
            pow_two_pos_of_ne_zero (sub_ne_zero.mpr (Ne.symm hx))
          have := denomD_nonneg t
          linarith
        · have := ih u v hu' hv' hx
          linarith

lemma fitPair_fst (pts : List (ℝ × ℝ)) :
    (fitPair pts).1 =
      ((pts.length : ℝ) * sumProd pts - sumFst pts * sumSnd pts) / denomD pts := rfl

lemma fitPair_snd (pts : List (ℝ × ℝ)) :
    (fitPair pts).2 =
      (sumSnd pts - (fitPair pts).1 * sumFst pts) / (pts.length : ℝ) := rfl

lemma fitPair_normal1 (pts : List (ℝ × ℝ)) (hn : (pts.length : ℝ) ≠ 0) :
    resSum pts (fitPair pts).2 (fitPair pts).1 = 0 := by
  rw [resSum_eq, fitPair_snd]
  field_simp

lemma fitPair_normal2 (pts : List (ℝ × ℝ)) (hn : (pts.length : ℝ) ≠ 0)
    (hd : denomD pts ≠ 0) :
    resXSum pts (fitPair pts).2 (fitPair pts).1 = 0 := by
  rw [resXSum_eq, fitPair_snd, fitPair_fst]
  have hd' : (pts.length : ℝ) * sumFstSq pts - (sumFst pts) ^ 2 ≠ 0 := by
    simpa [denomD] using hd
  simp only [denomD]
  field_simp
  ring

lemma fitPair_isMin (pts : List (ℝ × ℝ)) (hn : (pts.length : ℝ) ≠ 0)
    (hd : denomD pts ≠ 0) (a' b' : ℝ) :
    rssP pts (fitPair pts).2 (fitPair pts).1 ≤ rssP pts a' b' := by
  have h1 := fitPair_normal1 pts hn
  have h2 := fitPair_normal2 pts hn hd
  have hdec := rss_decomp pts (fitPair pts).2 (fitPair pts).1 a' b'
  rw [h1, h2] at hdec
  have hnn := shiftSq_nonneg pts (a' - (fitPair pts).2) (b' - (fitPair pts).1)
  linarith

lemma fit_slope_unique (pts : List (ℝ × ℝ)) (hn : (pts.length : ℝ) ≠ 0)
    (hd : denomD pts ≠ 0) {u v : ℝ × ℝ} (hu : u ∈ pts) (hv : v ∈ pts)
    (hx : u.1 ≠ v.1) {a' b' : ℝ}
    (hmin : ∀ a'' b'' : ℝ, rssP pts a' b' ≤ rssP pts a'' b'') :
    b' = (fitPair pts).1 := by
  have hle := fitPair_isMin pts hn hd a' b'
  have hge := hmin (fitPair pts).2 (fitPair pts).1
  have heq : rssP pts a' b' = rssP pts (fitPair pts).2 (fitPair pts).1 :=
    le_antisymm hge hle
  have hdec := rss_decomp pts (fitPair pts).2 (fitPair pts).1 a' b'
  rw [fitPair_normal1 pts hn, fitPair_normal2 pts hn hd, heq] at hdec
  have hz : shiftSq pts (a' - (fitPair pts).2) (b' - (fitPair pts).1) = 0 := by
    linarith
  have h1 := shiftSq_eq_zero hz u hu
  have h2 := shiftSq_eq_zero hz v hv
  have hprod : (b' - (fitPair pts).1) * (u.1 - v.1) = 0 := by
    linear_combination h1 - h2
  rcases mul_eq_zero.mp hprod with h | h
  · linarith
  · exact absurd (sub_eq_zero.mp h) hx

lemma sumSnd_collinear {pts : List (ℝ × ℝ)} {A B : ℝ}
    (h : ∀ p ∈ pts, p.2 = A + B * p.1) :
    sumSnd pts = (pts.length : ℝ) * A + B * sumFst pts := by
  induction pts with
  | nil => simp
  | cons q t ih =>
      have hq := h q (List.mem_cons_self q t)
      have ht : ∀ p ∈ t, p.2 = A + B * p.1 :=
        fun p hp => h p (List.mem_cons_of_mem q hp)
      simp only [sumSnd_cons, sumFst_cons, List.length_cons, ih ht, hq]
      push_cast
      ring

lemma sumProd_collinear {pts : List (ℝ × ℝ)} {A B : ℝ}
    (h : ∀ p ∈ pts, p.2 = A + B * p.1) :
    sumProd pts = A * sumFst pts + B * sumFstSq pts := by
  induction pts with
  | nil => simp
  | cons q t ih =>
      have hq := h q (List.mem_cons_self q t)
      have ht : ∀ p ∈ t, p.2 = A + B * p.1 :=
        fun p hp => h p (List.mem_cons_of_mem q hp)
      simp only [sumProd_cons, sumFst_cons, sumFstSq_cons, ih ht, hq]
      ring

lemma fitPair_slope_collinear {pts : List (ℝ × ℝ)} {A B : ℝ}
    (h : ∀ p ∈ pts, p.2 = A + B * p.1) (hd : denomD pts ≠ 0) :
    (fitPair pts).1 = B := by
  rw [fitPair_fst, sumProd_collinear h, sumSnd_collinear h]
  have hnum : (pts.length : ℝ) * (A * sumFst pts + B * sumFstSq pts) -
      sumFst pts * ((pts.length : ℝ) * A + B * sumFst pts) = B * denomD pts := by
    simp only [denomD]
    ring
  rw [hnum, mul_div_assoc, div_self hd, mul_one]

/-! ## Bridging lemmas -/

/-- The zipped `(log Sample_Count, log Error)` data both fitting sites feed
to `np.polyfit`. -/
noncomputable def logPts (df : Df) : List (ℝ × ℝ) :=
  (log_samples df).zip (log_errors df)

lemma logPts_eq (df : Df) :
    logPts df = df.map (fun o => (Real.log o.sample_count, Real.log o.error)) := by
  unfold logPts log_samples log_errors
  exact List.zip_map' _ _ _

lemma logPts_length (df : Df) : (logPts df).length = df.length := by
  rw [logPts_eq, List.length_map]

lemma convergence_rate_eq (df : Df) :
    convergence_rate df = -(fitPair (logPts df)).1 := rfl

lemma logPts_two_distinct (df : Df) (h2 : 2 ≤ df.length)
    (hsorted : df.Pairwise (fun a b => a.sample_count < b.sample_count))
    (hcnt : ∀ o ∈ df, 0 < o.sample_count) :
    ∃ u ∈ logPts df, ∃ v ∈ logPts df, u.1 ≠ v.1 := by
  rcases df with _ | ⟨o₀, _ | ⟨o₁, rest⟩⟩
  · simp at h2
  · simp at h2
  · have hmem0 : o₀ ∈ o₀ :: o₁ :: rest := List.mem_cons_self _ _
    have hmem1 : o₁ ∈ o₀ :: o₁ :: rest :=
      List.mem_cons_of_mem _ (List.mem_cons_self _ _)
    have hlt : o₀.sample_count < o₁.sample_count :=
      (List.pairwise_cons.mp hsorted).1 o₁ (List.mem_cons_self _ _)
    have h0 : 0 < o₀.sample_count := hcnt o₀ hmem0
    refine ⟨(Real.log o₀.sample_count, Real.log o₀.error), ?_,
      (Real.log o₁.sample_count, Real.log o₁.error), ?_, ?_⟩
    · rw [logPts_eq]
      exact List.mem_map_of_mem _ hmem0
    · rw [logPts_eq]
      exact List.mem_map_of_mem _ hmem1
    · have hcast0 : (0 : ℝ) < o₀.sample_count := by exact_mod_cast h0
      have hcastlt : (o₀.sample_count : ℝ) < o₁.sample_count := by exact_mod_cast hlt
      exact ne_of_lt (Real.log_lt_log hcast0 hcastlt)

lemma logPts_len_ne (df : Df) (h2 : 2 ≤ df.length) :
    ((logPts df).length : ℝ) ≠ 0 := by
  rw [logPts_length]
  exact_mod_cast (by omega : df.length ≠ 0)

lemma logPts_denom_ne (df : Df) (h2 : 2 ≤ df.length)
    (hsorted : df.Pairwise (fun a b => a.sample_count < b.sample_count))
    (hcnt : ∀ o ∈ df, 0 < o.sample_count) :
    denomD (logPts df) ≠ 0 := by
  obtain ⟨u, hu, v, hv, hx⟩ := logPts_two_distinct df h2 hsorted hcnt
  exact ne_of_gt (denomD_pos _ u v hu hv hx)

/-! ## Column statistics over a constant column -/

lemma foldl_min_replicate (v : ℝ) : ∀ m : ℕ, (List.replicate m v).foldl min v = v := by
  intro m
  induction m with
  | zero => rfl
  | succ k ih =>
      show (List.replicate k v).foldl min (min v v) = v
      rw [min_self]
      exact ih

lemma foldl_max_replicate (v : ℝ) : ∀ m : ℕ, (List.replicate m v).foldl max v = v := by
  intro m
  induction m with
  | zero => rfl
  | succ k ih =>
      show (List.replicate k v).foldl max (max v v) = v
      rw [max_self]
      exact ih

lemma colMin_replicate (n : ℕ) (hn : n ≠ 0) (v : ℝ) :
    colMin (List.replicate n v) = v := by
  cases n with
  | zero => cases hn rfl
  | succ m => exact foldl_min_replicate v m

lemma colMax_replicate (n : ℕ) (hn : n ≠ 0) (v : ℝ) :
    colMax (List.replicate n v) = v := by
  cases n with
  | zero => cases hn rfl
  | succ m => exact foldl_max_replicate v m

lemma colMean_replicate (n : ℕ) (hn : n ≠ 0) (v : ℝ) :
    colMean (List.replicate n v) = v := by
  unfold colMean
  rw [List.sum_replicate, List.length_replicate, nsmul_eq_mul]
  exact mul_div_cancel_left₀ v (Nat.cast_ne_zero.mpr hn)

lemma colStd_replicate (n : ℕ) (h2 : 2 ≤ n) (v : ℝ) :
    colStd (List.replicate n v) = some 0 := by
  unfold colStd
  rw [List.length_replicate, if_pos h2]
  have hmean := colMean_replicate n (by omega) v
  rw [List.map_replicate, hmean]
  simp [List.sum_replicate]

/-! ## `.iloc[-1]` helpers -/

lemma cons_getLast? {α : Type} (o : α) (t : List α) :
    ∃ z, (o :: t).getLast? = some z := by
  induction t generalizing o with
  | nil => exact ⟨o, rfl⟩
  | cons b t' ih =>
      rw [List.getLast?_cons_cons]
      exact ih b

lemma replicate_getLast? {α : Type} (v : α) :
    ∀ n : ℕ, n ≠ 0 → (List.replicate n v).getLast? = some v := by
  intro n
  induction n with
  | zero => intro h; cases h rfl
  | succ m ih =>
      intro _
      cases m with
      | zero => rfl
      | succ k =>
          show (v :: v :: List.replicate k v).getLast? = some v
          rw [List.getLast?_cons_cons]
          exact ih (Nat.succ_ne_zero k)

lemma summary_report_content (file : String) (o : Obs) (t : Df) :
    ∃ z, (o :: t).getLast? = some z ∧
      create_summary_report file (.content (o :: t)) =
        .output (buildReport file (o :: t) z) := by
  obtain ⟨z, hz⟩ := cons_getLast? o t
  exact ⟨z, hz, by simp [create_summary_report, read_csv, hz]⟩

lemma error_analysis_content (file : String) (o : Obs) (t : Df) :
    ∃ z, (o :: t).getLast? = some z ∧
      plot_error_analysis file (.content (o :: t)) =
        .output (buildErrPlot (o :: t) z) := by
  obtain ⟨z, hz⟩ := cons_getLast? o t
  exact ⟨z, hz, by simp [plot_error_analysis, read_csv, hz]⟩

lemma buildReport_convergence (file : String) (df : Df) (last : Obs) :
    (buildReport file df last).convergence =
      if 1 < df.length then
        some { rate := convergence_rate df
               rateOverHalf := convergence_rate df / 0.5 }
      else none := rfl

lemma buildReport_errStats (file : String) (df : Df) (last : Obs) :
    (buildReport file df last).errStats =
      summary_stats (df.map (fun o => o.error)) := rfl

lemma buildReport_estStats (file : String) (df : Df) (last : Obs) :
    (buildReport file df last).estStats =
      summary_stats (df.map (fun o => o.pi_estimate)) := rfl

lemma buildReport_totalPoints (file : String) (df : Df) (last : Obs) :
    (buildReport file df last).totalPoints = df.length := rfl

lemma buildErrPlot_rateSection (df : Df) (last : Obs) :
    (buildErrPlot df last).rateSection =
      if 1 < df.length then
        some { slope := (polyfit1 (log_samples df) (log_errors df)).1
               rate := convergence_rate df }
      else none := rfl

/-! ## A concrete sample series: `error = 1 / sqrt(sample_count)` -/

/-- Two rows with `error = 1/sqrt(n)` exactly: `(1, 1)` and `(4, 1/2)`. -/
noncomputable def sampleDf : Df := [⟨1, 3.14, 1⟩, ⟨4, 3.14, 0.5⟩]

lemma sampleDf_h2 : 2 ≤ sampleDf.length := by simp [sampleDf]

lemma sampleDf_sorted :
    sampleDf.Pairwise (fun a b => a.sample_count < b.sample_count) := by
  unfold sampleDf
  refine List.Pairwise.cons ?_ (List.pairwise_singleton _ _)
  intro o ho
  rw [List.mem_singleton] at ho
  subst ho
  exact (by norm_num : (1 : ℕ) < 4)

lemma sampleDf_cnt : ∀ o ∈ sampleDf, 0 < o.sample_count := by
  intro o ho
  simp only [sampleDf, List.mem_cons, List.mem_singleton, List.not_mem_nil,
    or_false] at ho
  rcases ho with rfl | rfl
  · exact (by norm_num : (0 : ℕ) < 1)
  · exact (by norm_num : (0 : ℕ) < 4)

lemma sampleDf_errpos : ∀ o ∈ sampleDf, 0 < o.error := by
  intro o ho
  simp only [sampleDf, List.mem_cons, List.mem_singleton, List.not_mem_nil,
    or_false] at ho
  rcases ho with rfl | rfl
  · exact (by norm_num : (0 : ℝ) < 1)
  · exact (by norm_num : (0 : ℝ) < 0.5)

lemma sampleDf_invsqrt :
    ∀ o ∈ sampleDf, o.error = 1 / Real.sqrt (o.sample_count : ℝ) := by
  intro o ho
  simp only [sampleDf, List.mem_cons, List.mem_singleton, List.not_mem_nil,
    or_false] at ho
  rcases ho with rfl | rfl
  · show (1 : ℝ) = 1 / Real.sqrt ((1 : ℕ) : ℝ)
    rw [Nat.cast_one, Real.sqrt_one]
    norm_num
  · show (0.5 : ℝ) = 1 / Real.sqrt ((4 : ℕ) : ℝ)
    have h4 : ((4 : ℕ) : ℝ) = (2 : ℝ) ^ 2 := by norm_num
    rw [h4, Real.sqrt_sq (by norm_num : (0 : ℝ) ≤ 2)]
    norm_num

/-! ## The claims -/

/-- Claim C1, counterexample: with an existing but empty input file,
`plot_error_analysis` does NOT catch the load failure — the
`EmptyDataError` raised by `pd.read_csv` propagates out of the function,
contradicting the claim that every file-level load failure is caught at
the point of loading in every visualization function. -/
theorem claimC1_counterexample :
    plot_error_analysis "results.csv" .empty = Outcome.raised PyError.emptyDataError := rfl

/-- Claim C1, amended: a missing input is caught and reported (naming the
file) by all three visualization functions, which then return without
output; an empty input is caught and reported only by `plot_convergence`
— in `plot_error_analysis` and `create_summary_report` the
`EmptyDataError` propagates past the function. -/
theorem claimC1_amended (file : String) :
    (plot_convergence file .absent = .printedNotFound file ∧
      plot_convergence file .empty = .printedEmpty file) ∧
    (plot_error_analysis file .absent = .printedNotFound file ∧
      plot_error_analysis file .empty = .raised .emptyDataError) ∧
    (create_summary_report file .absent = .printedNotFound file ∧
      create_summary_report file .empty = .raised .emptyDataError) :=
  ⟨⟨rfl, rfl⟩, ⟨rfl, rfl⟩, ⟨rfl, rfl⟩⟩

/-- Claim C2: for a series of at least 2 rows with positive errors
(satisfying the data-model invariant of strictly increasing positive
sample counts), the computed convergence rate is the negated slope of the
ordinary-least-squares first-degree fit of `ln(error)` against
`ln(sample_count)`: the coefficients the code computes do minimize the sum
of squared residuals, and any minimizing pair has this very slope. -/
theorem claimC2 (df : Df) (h2 : 2 ≤ df.length)
    (hsorted : df.Pairwise (fun a b => a.sample_count < b.sample_count))
    (hcnt : ∀ o ∈ df, 0 < o.sample_count)
    (herr : ∀ o ∈ df, 0 < o.error) :
    (IsOLSFit (log_samples df) (log_errors df)
        (polyfit1 (log_samples df) (log_errors df)).2
        (polyfit1 (log_samples df) (log_errors df)).1 ∧
      convergence_rate df = -(polyfit1 (log_samples df) (log_errors df)).1) ∧
    ∀ a b : ℝ, IsOLSFit (log_samples df) (log_errors df) a b →
      convergence_rate df = -b := by
  have hn := logPts_len_ne df h2
  have hd := logPts_denom_ne df h2 hsorted hcnt
  obtain ⟨u, hu, v, hv, hx⟩ := logPts_two_distinct df h2 hsorted hcnt
  constructor
  · constructor
    · intro a' b'
      exact fitPair_isMin (logPts df) hn hd a' b'
    · rfl
  · intro a b hab
    have hb := fit_slope_unique (logPts df) hn hd hu hv hx hab
    rw [convergence_rate_eq, hb]

/-- Claim C2, witness: the two-row series `sampleDf` satisfies the
hypotheses and the theorem applies to it. -/
theorem claimC2_witness :
    (IsOLSFit (log_samples sampleDf) (log_errors sampleDf)
        (polyfit1 (log_samples sampleDf) (log_errors sampleDf)).2
        (polyfit1 (log_samples sampleDf) (log_errors sampleDf)).1 ∧
      convergence_rate sampleDf =
        -(polyfit1 (log_samples sampleDf) (log_errors sampleDf)).1) ∧
    ∀ a b : ℝ, IsOLSFit (log_samples sampleDf) (log_errors sampleDf) a b →
      convergence_rate sampleDf = -b :=
  claimC2 sampleDf sampleDf_h2 sampleDf_sorted sampleDf_cnt sampleDf_errpos

/-- Claim C3: on a synthetic series with `error = c / sqrt(sample_count)`
(`c > 0`, at least two rows, distinct positive sample counts) the computed
convergence rate is exactly `0.5`, the printed rate ratio
`convergence_rate / 0.5` is exactly `1`, and the summary report's
`CONVERGENCE ANALYSIS` section carries exactly these values. -/
theorem claimC3 (df : Df) (c : ℝ) (h2 : 2 ≤ df.length)
    (hsorted : df.Pairwise (fun a b => a.sample_count < b.sample_count))
    (hcnt : ∀ o ∈ df, 0 < o.sample_count) (hc : 0 < c)
    (herr : ∀ o ∈ df, o.error = c / Real.sqrt (o.sample_count : ℝ)) :
    convergence_rate df = 0.5 ∧ convergence_rate df / 0.5 = 1 ∧
    ∀ file : String, ∃ r : Report,
      create_summary_report file (.content df) = .output r ∧
      r.convergence = some ⟨0.5, 1⟩ := by
  have hd := logPts_denom_ne df h2 hsorted hcnt
  have hcol : ∀ p ∈ logPts df, p.2 = Real.log c + -(1 / 2) * p.1 := by
    rw [logPts_eq]
    intro p hp
    obtain ⟨o, ho, rfl⟩ := List.mem_map.mp hp
    have hopos : (0 : ℝ) < (o.sample_count : ℝ) := by exact_mod_cast hcnt o ho
    have hsq : (0 : ℝ) < Real.sqrt (o.sample_count : ℝ) := Real.sqrt_pos.mpr hopos
    show Real.log o.error = Real.log c + -(1 / 2) * Real.log (o.sample_count : ℝ)
    rw [herr o ho, Real.log_div (ne_of_gt hc) (ne_of_gt hsq),
      Real.log_sqrt (le_of_lt hopos)]
    ring
  have hslope : (fitPair (logPts df)).1 = -(1 / 2) :=
    fitPair_slope_collinear hcol hd
  have hrate : convergence_rate df = 0.5 := by
    rw [convergence_rate_eq, hslope]
    norm_num
  refine ⟨hrate, by rw [hrate]; norm_num, ?_⟩
  intro file
  rcases df with _ | ⟨o, t⟩
  · simp at h2
  · obtain ⟨z, hz, hrep⟩ := summary_report_content file o t
    refine ⟨buildReport file (o :: t) z, hrep, ?_⟩
    have hlen : 1 < (o :: t).length := by
      simpa using h2
    rw [buildReport_convergence, if_pos hlen, hrate]
    simp only [Option.some_inj, ConvAnalysis.mk.injEq]
    norm_num

/-- Claim C3, witness: the theorem applies to `sampleDf` with `c = 1`. -/
theorem claimC3_witness :
    convergence_rate sampleDf = 0.5 ∧ convergence_rate sampleDf / 0.5 = 1 := by
  have h := claimC3 sampleDf 1 sampleDf_h2 sampleDf_sorted sampleDf_cnt
    (by norm_num) sampleDf_invsqrt
  exact ⟨h.1, h.2.1⟩

/-- Claim C4: for a series with positive errors, the relative-error column
has the same length as the series and each entry equals
`100 × error / π`. -/
theorem claimC4 (df : Df) (herr : ∀ o ∈ df, 0 < o.error) :
    (relative_errors df).length = df.length ∧
    relative_errors df = df.map (fun o => 100 * o.error / Real.pi) := by
  constructor
  · exact List.length_map _ _
  · clear herr
    induction df with
    | nil => rfl
    | cons o t ih =>
        simp only [relative_errors, List.map_cons, List.cons.injEq]
        exact ⟨by ring, ih⟩

/-- Claim C4, witness: the theorem applies to a concrete one-row series. -/
theorem claimC4_witness :
    (∀ o ∈ ([⟨10, 3.14, 1⟩] : Df), 0 < o.error) ∧
    relative_errors [⟨10, 3.14, 1⟩] =
      ([⟨10, 3.14, 1⟩] : Df).map (fun o => 100 * o.error / Real.pi) := by
  have hh : ∀ o ∈ ([⟨10, 3.14, 1⟩] : Df), 0 < o.error := by
    intro o ho
    rw [List.mem_singleton] at ho
    subst ho
    exact (by norm_num : (0 : ℝ) < 1)
  exact ⟨hh, (claimC4 _ hh).2⟩

/-- Claim C5: the sample-efficiency column is `1 / (sample_count × error²)`
per observation, and at the row `(100, 0.1)` it equals exactly `1` (in the
exact-real model of the float arithmetic). -/
theorem claimC5 :
    (∀ df : Df, sample_efficiency df =
      df.map (fun o => 1 / ((o.sample_count : ℝ) * o.error ^ 2))) ∧
    sample_efficiency [⟨100, 3.14, 0.1⟩] = [1] := by
  refine ⟨fun df => rfl, ?_⟩
  simp only [sample_efficiency, List.map_cons, List.map_nil, List.cons.injEq,
    and_true]
  norm_num

/-- Claim C6: for a series of `n ≥ 2` identical rows, the report's error
and estimate statistics come out as `min = max = mean = v` and
`std = 0` (with the sample, `n − 1` denominator, convention). -/
theorem claimC6 (file : String) (o : Obs) (n : ℕ) (h2 : 2 ≤ n) :
    ∃ r : Report,
      create_summary_report file (.content (List.replicate n o)) = .output r ∧
      r.errStats = ⟨o.error, o.error, o.error, some 0⟩ ∧
      r.estStats = ⟨o.pi_estimate, o.pi_estimate, o.pi_estimate, some 0⟩ := by
  have hn : n ≠ 0 := by omega
  have hlast := replicate_getLast? o n hn
  refine ⟨buildReport file (List.replicate n o) o, ?_, ?_, ?_⟩
  · simp [create_summary_report, read_csv, hlast]
  · rw [buildReport_errStats, List.map_replicate]
    unfold summary_stats
    rw [colMin_replicate n hn, colMax_replicate n hn, colMean_replicate n hn,
      colStd_replicate n h2]
  · rw [buildReport_estStats, List.map_replicate]
    unfold summary_stats
    rw [colMin_replicate n hn, colMax_replicate n hn, colMean_replicate n hn,
      colStd_replicate n h2]

/-- Claim C6, witness: the theorem applies to two identical concrete rows. -/
theorem claimC6_witness :
    ∃ r : Report,
      create_summary_report "results.csv"
        (.content (List.replicate 2 (⟨10, 3.14, 1⟩ : Obs))) = .output r ∧
      r.errStats = ⟨(⟨10, 3.14, 1⟩ : Obs).error, (⟨10, 3.14, 1⟩ : Obs).error,
        (⟨10, 3.14, 1⟩ : Obs).error, some 0⟩ ∧
      r.estStats = ⟨(⟨10, 3.14, 1⟩ : Obs).pi_estimate,
        (⟨10, 3.14, 1⟩ : Obs).pi_estimate,
        (⟨10, 3.14, 1⟩ : Obs).pi_estimate, some 0⟩ :=
  claimC6 "results.csv" ⟨10, 3.14, 1⟩ 2 (by norm_num)

/-- Claim C7, counterexample: with an input path that exists but is an
empty file, `main` in `summary` mode does not exit 0 — the uncaught
`EmptyDataError` crashes the process (non-zero status), contradicting the
claim that the driver always exits 0 when the path exists. -/
theorem claimC7_counterexample :
    main "results.csv" .empty .summary = MainResult.crashed PyError.emptyDataError ∧
    exitCode (main "results.csv" .empty .summary) = 1 := ⟨rfl, rfl⟩

/-- Claim C7, amended: `main` exits 1 with a message naming the file when
the path does not exist; when the path exists it exits 0 — for mode
`convergence` always (even for an empty file, whose error is caught, and
for a zero-row table), and for modes `error` and `summary` provided the
file is non-empty and has at least one data row; an empty file, or a
zero-row table, in modes `error` or `summary` crashes the process via an
uncaught exception (non-zero status). -/
theorem claimC7_amended (file : String) (mode : Mode) (o : Obs) (t : Df) :
    (main file .absent mode = .earlyExit file ∧
      exitCode (main file .absent mode) = 1) ∧
    (main file (.content (o :: t)) mode = .completed ∧
      exitCode (main file (.content (o :: t)) mode) = 0) ∧
    main file .empty .convergence = .completed ∧
    main file .empty .error = .crashed .emptyDataError ∧
    main file .empty .summary = .crashed .emptyDataError ∧
    main file (.content []) .convergence = .completed ∧
    main file (.content []) .error = .crashed .indexError ∧
    main file (.content []) .summary = .crashed .indexError := by
  have hmain : main file (.content (o :: t)) mode = .completed := by
    obtain ⟨z, hz, hep⟩ := error_analysis_content file o t
    obtain ⟨z', hz', hrep⟩ := summary_report_content file o t
    cases mode with
    | convergence => rfl
    | error => simp [main, hep, raisedOf]
    | summary => simp [main, hrep, raisedOf]
  refine ⟨⟨rfl, rfl⟩, ⟨hmain, ?_⟩, rfl, rfl, rfl, rfl, rfl, rfl⟩
  rw [hmain]
  rfl


/-- Claim C8: insufficient rows degrade the output instead of failing:
the histogram panel of `plot_convergence` is a placeholder exactly when
the series has at most 10 rows, and the convergence-rate fit of
`plot_error_analysis` and the `CONVERGENCE ANALYSIS` section of
`create_summary_report` are omitted exactly when a (nonempty) series has
fewer than 2 rows — in each case the function still produces its output. -/
theorem claimC8 (file : String) (df : Df) (o : Obs) (t : Df) :
    (∃ p : ConvPlot, plot_convergence file (.content df) = .output p ∧
      (p.hist = HistPanel.placeholderText ↔ df.length ≤ 10)) ∧
    (∃ ep : ErrPlot, plot_error_analysis file (.content (o :: t)) = .output ep ∧
      (ep.rateSection = none ↔ (o :: t).length < 2)) ∧
    (∃ r : Report, create_summary_report file (.content (o :: t)) = .output r ∧
      (r.convergence = none ↔ (o :: t).length < 2)) := by
  refine ⟨⟨_, rfl, ?_⟩, ?_, ?_⟩
  · show (if 10 < df.length then HistPanel.histogram (min 20 (df.length / 5))
        else HistPanel.placeholderText) = HistPanel.placeholderText ↔
      df.length ≤ 10
    rcases Nat.lt_or_ge 10 df.length with h | h
    · rw [if_pos h]
      simp
      omega
    · rw [if_neg (by omega : ¬10 < df.length)]
      simp
      omega
  · obtain ⟨z, hz, hep⟩ := error_analysis_content file o t
    refine ⟨_, hep, ?_⟩
    rw [buildErrPlot_rateSection]
    simp only [List.length_cons]
    rcases Nat.lt_or_ge 1 (t.length + 1) with h | h
    · rw [if_pos h]
      simp
      omega
    · rw [if_neg (by omega : ¬1 < t.length + 1)]
      simp
      omega
  · obtain ⟨z, hz, hrep⟩ := summary_report_content file o t
    refine ⟨_, hrep, ?_⟩
    rw [buildReport_convergence]
    simp only [List.length_cons]
    rcases Nat.lt_or_ge 1 (t.length + 1) with h | h
    · rw [if_pos h]
      simp
      omega
    · rw [if_neg (by omega : ¬1 < t.length + 1)]
      simp
      omega

/-- Claim C8, witness: a concrete one-row series gets a placeholder
histogram, an omitted rate fit, and an omitted convergence section. -/
theorem claimC8_witness :
    (∃ p : ConvPlot,
      plot_convergence "results.csv" (.content [⟨10, 3.14, 1⟩]) = .output p ∧
      (p.hist = HistPanel.placeholderText ↔ ([⟨10, 3.14, 1⟩] : Df).length ≤ 10)) ∧
    (∃ ep : ErrPlot,
      plot_error_analysis "results.csv" (.content [⟨10, 3.14, 1⟩]) = .output ep ∧
      (ep.rateSection = none ↔ ([⟨10, 3.14, 1⟩] : Df).length < 2)) ∧
    (∃ r : Report,
      create_summary_report "results.csv" (.content [⟨10, 3.14, 1⟩]) = .output r ∧
      (r.convergence = none ↔ ([⟨10, 3.14, 1⟩] : Df).length < 2)) :=
  claimC8 "results.csv" [⟨10, 3.14, 1⟩] ⟨10, 3.14, 1⟩ []

/-- Claim C9: the derived computations apply to every row with no guard —
the log-error and efficiency columns keep the series length — and when all
sample counts and errors are positive every logarithm argument and every
efficiency divisor is strictly positive; a row with zero error makes the
zero divisor / zero logarithm argument reachable. -/
theorem claimC9 (df : Df)
    (h : ∀ o ∈ df, 0 < o.sample_count ∧ 0 < o.error) :
    ((log_errors df).length = df.length ∧
      (sample_efficiency df).length = df.length) ∧
    (∀ o ∈ df, (0 : ℝ) < (o.sample_count : ℝ) ∧ (0 : ℝ) < o.error ∧
      (0 : ℝ) < (o.sample_count : ℝ) * o.error ^ 2) ∧
    (∃ o ∈ ([⟨10, 3.14, 0⟩] : Df), o.error = 0 ∧
      (o.sample_count : ℝ) * o.error ^ 2 = 0) := by
  refine ⟨⟨List.length_map _ _, List.length_map _ _⟩, ?_, ?_⟩
  · intro o ho
    obtain ⟨h1, h2⟩ := h o ho
    have hc : (0 : ℝ) < (o.sample_count : ℝ) := by exact_mod_cast h1
    exact ⟨hc, h2, mul_pos hc (pow_pos h2 2)⟩
  · refine ⟨⟨10, 3.14, 0⟩, List.mem_singleton_self _, rfl, ?_⟩
    show ((10 : ℕ) : ℝ) * (0 : ℝ) ^ 2 = 0
    norm_num

/-- Claim C9, witness: the theorem applies to a concrete all-positive row. -/
theorem claimC9_witness :
    (∀ o ∈ ([⟨100, 3.14, 0.1⟩] : Df), 0 < o.sample_count ∧ 0 < o.error) ∧
    (∀ o ∈ ([⟨100, 3.14, 0.1⟩] : Df), (0 : ℝ) < (o.sample_count : ℝ) ∧
      (0 : ℝ) < o.error ∧
      (0 : ℝ) < (o.sample_count : ℝ) * o.error ^ 2) := by
  have hh : ∀ o ∈ ([⟨100, 3.14, 0.1⟩] : Df), 0 < o.sample_count ∧ 0 < o.error := by
    intro o ho
    rw [List.mem_singleton] at ho
    subst ho
    exact ⟨(by norm_num : (0 : ℕ) < 100), (by norm_num : (0 : ℝ) < 0.1)⟩
  exact ⟨hh, (claimC9 _ hh).2.1⟩

/-- Claim C10: a single-row series still yields a full report (the
`CONVERGENCE ANALYSIS` section is skipped), but the printed standard
deviations of error and of estimate are not numbers — the `n − 1`
denominator standard deviation of one row is NaN in pandas, modelled here
as `none`, not `0`. -/
theorem claimC10 (file : String) (o : Obs) :
    ∃ r : Report, create_summary_report file (.content [o]) = .output r ∧
      r.totalPoints = 1 ∧ r.convergence = none ∧
      r.errStats.stdV = none ∧ r.estStats.stdV = none := by
  obtain ⟨z, hz, hrep⟩ := summary_report_content file o []
  refine ⟨buildReport file [o] z, hrep, rfl, ?_, ?_, ?_⟩
  · rw [buildReport_convergence]
    simp
  · rw [buildReport_errStats]
    simp [summary_stats, colStd]
  · rw [buildReport_estStats]
    simp [summary_stats, colStd]

end MCPlot
